import Mathlib

/-!
Verification development for the jira-xray-electron repository.

The subject of the claims is the metadata-driven remote orchestration layer:
the field-value transformer (`src/renderer/utils/dynamicFields.ts`, shipped
here as `src/unnamed/part_003`), the field-mapping service
(`src/main/services/fieldMappingService.ts`), the Jira API client
(`src/main/services/jiraService.ts`, second/enhanced class in the file),
the metadata cache (`MetadataService`, second class in
`src/main/services/credentialService.ts`), and the IPC orchestration
handlers (`src/main/ipc/testHandlers.ts`).

The TypeScript runtime values that flow through these functions are
modelled by the inductive type `JSVal` below, with JavaScript truthiness,
property access and stringification modelled explicitly where the source
relies on them.
-/

set_option maxHeartbeats 1000000

/-- A JavaScript runtime value, as handled by the transformer and the
error classifier.  Numbers are modelled as integers (no float-specific
behaviour is exercised by the code under verification); `vundefined` is
JavaScript `undefined` and `vnull` is `null`. -/
inductive JSVal where
  | vstr (s : String)
  | vnum (n : Int)
  | vbool (b : Bool)
  | vnull
  | vundefined
  | vobj (fields : List (String × JSVal))
  | varr (elems : List JSVal)

/-- JavaScript truthiness: `''`, `0`, `false`, `null`, `undefined` are
falsy; every object and every array (including `[]`) is truthy. -/
def jsTruthy : JSVal → Bool
  | .vstr s => !(s == "")
  | .vnum n => !(n == 0)
  | .vbool b => b
  | .vnull => false
  | .vundefined => false
  | .vobj _ => true
  | .varr _ => true

/-- A JavaScript scalar: string, number or boolean. -/
def jsScalar : JSVal → Bool
  | .vstr _ => true
  | .vnum _ => true
  | .vbool _ => true
  | _ => false

/-- Property access `v[k]`: field lookup on an object, `undefined` when the
key is absent or the receiver is not an object (none of the receivers the
code reads properties from are primitives with matching properties). -/
def jsGet (v : JSVal) (k : String) : JSVal :=
  match v with
  | .vobj kvs =>
    match kvs.find? (fun p => p.1 == k) with
    | some p => p.2
    | none => .vundefined
  | _ => .vundefined

/-- JavaScript `a || b`. -/
def jsOr (a b : JSVal) : JSVal :=
  if jsTruthy a then a else b

/-- `Object.keys(o)[0]` for the format objects the mapping file holds
(e.g. `{ name: "string" }`).  On a value with no first key JavaScript
yields `undefined`, which string-coerces to `"undefined"` when used as a
computed property name; the degenerate case is not reached by any claim. -/
def jsFirstKey : JSVal → String
  | .vobj ((k, _) :: _) => k
  | _ => "undefined"

/-- `String(v)` as used when a value is interpolated or joined. -/
def jsToString : JSVal → String
  | .vstr s => s
  | .vnum n => toString n
  | .vbool true => "true"
  | .vbool false => "false"
  | .vnull => "null"
  | .vundefined => "undefined"
  | .vobj _ => "[object Object]"
  | .varr _ => ""

/-! ## Field Value Transformer
From `src/unnamed/part_003` (`dynamicFields.ts`): `FieldConfig` and
`FieldValueTransformer.fromJira` / `FieldValueTransformer.toJira`. -/

/-- `FieldConfig` from `dynamicFields.ts`.  The source `format?: any` is an
arbitrary JS value (an object such as `{ name: "string" }`, an array such
as `[{ name: "string" }]`, or absent); `type` is the declared field type
string. -/
structure FieldConfig where
  jiraField : String
  type : String
  required : Bool
  format : Option JSVal

/-- `FieldValueTransformer.fromJira(value, config)`: wire format to UI
format.  Mirrors the source line by line: falsy input maps to `''`; an
object-shaped format unwraps `value[key] || value.id || value`; an array
field with a non-empty array format unwraps per element; everything else
is returned unchanged. -/
def fromJira (value : JSVal) (config : FieldConfig) : JSVal :=
  if jsTruthy value = false then .vstr ""
  else
    match config.format with
    | some (.vobj kvs) =>
      jsOr (jsGet value (jsFirstKey (.vobj kvs))) (jsOr (jsGet value "id") value)
    | fmt =>
      match value with
      | .varr elems =>
        if config.type == "array" then
          match fmt with
          | some (.varr (f0 :: _)) =>
            .varr (elems.map fun item =>
              jsOr (jsGet item (jsFirstKey f0)) (jsOr (jsGet item "id") item))
          | _ => .varr elems
        else .varr elems
      | v => v

/-- `FieldValueTransformer.toJira(value, config)`: UI format to wire
format.  `none` models the source returning `undefined` (field omitted).
The source guard is `!value || value === ''`; the second disjunct is
subsumed by the first (the empty string is falsy).  Note that an empty
array is truthy in JavaScript, so it passes the guard.
Divergence, disclosed: in the array-format branch the source computes
`Object.keys(config.format[0])[0]` eagerly, so when the format array is
empty (or headed by null) it throws a TypeError; `toJiraThrows` below
captures exactly those inputs, and no theorem in this file quantifies
over them — this total function's value there is unreached. -/
def toJira (value : JSVal) (config : FieldConfig) : Option JSVal :=
  if jsTruthy value = false then none
  else
    match config.format with
    | some (.vobj kvs) => some (.vobj [(jsFirstKey (.vobj kvs), value)])
    | some (.varr fs) =>
      if config.type == "array" then
        match value with
        | .varr elems =>
          some (.varr (elems.map fun item =>
            .vobj [(jsFirstKey (match fs with | f0 :: _ => f0 | [] => .vundefined), item)]))
        | _ => none
      else some value
    | _ => some value

/-- The "list-of-reference" descriptor shape: an `array` type whose format
is a non-empty array of reference wrappers such as `[{ name: "string" }]`. -/
def listOfRefShape (config : FieldConfig) : Prop :=
  config.type = "array" ∧
    ∃ k fv kvs rest, config.format = some (.varr (.vobj ((k, fv) :: kvs) :: rest))

/-- The "single-reference" descriptor shape: a format that is an object
wrapper such as `{ id: "string" }` or `{ name: "string" }`. -/
def singleRefShape (config : FieldConfig) : Prop :=
  ∃ k fv kvs, config.format = some (.vobj ((k, fv) :: kvs))

/-! ## Field Mapping Service
From `src/main/services/fieldMappingService.ts`:
`FieldMappingService.transformToJiraFormat`.  The per-issue-type field
dictionary that the source obtains through `getIssueTypeFields` (a merge
of the JSON mapping file's `common` and `xray` sections) is passed in
explicitly; the JSON file load is an I/O concern outside the transform. -/

/-- Association-list lookup, modelling both `Record<string, T>` access and
`Map.get`. -/
def mapGet {α : Type} (m : List (String × α)) (k : String) : Option α :=
  match m.find? (fun p => p.1 == k) with
  | some p => some p.2
  | none => none

/-- The omission guard of `transformToJiraFormat`:
`value === undefined || value === null || value === ''` (strict equality,
so an empty array does not match). -/
def isOmittedEntryVal : JSVal → Bool
  | .vundefined => true
  | .vnull => true
  | .vstr "" => true
  | _ => false

/-- `FieldMappingService.transformToJiraFormat(data, issueType)`: walks the
logical entries in order; entries with no field config or with
undefined/null/empty-string values are skipped; an object format wraps the
value, an array format wraps each element of an array value; the result is
keyed by the configured Jira field name.
Divergence, disclosed: as in `toJira`, the source's eager
`Object.keys(fieldConfig.format[0])[0]` throws a TypeError when an array
value meets an empty (or null-headed) format array; `transformValueThrows`
below captures those entries, and no theorem quantifies over them. -/
def transformToJiraFormat (fields : List (String × FieldConfig))
    (data : List (String × JSVal)) : List (String × JSVal) :=
  data.foldl (fun jiraData entry =>
    match mapGet fields entry.1 with
    | none => jiraData
    | some fieldConfig =>
      if isOmittedEntryVal entry.2 then jiraData
      else
        let transformedValue :=
          match fieldConfig.format with
          | some (.vobj kvs) => JSVal.vobj [(jsFirstKey (.vobj kvs), entry.2)]
          | some (.varr fs) =>
            match entry.2 with
            | .varr elems =>
              JSVal.varr (elems.map fun v =>
                .vobj [(jsFirstKey (match fs with | f0 :: _ => f0 | [] => .vundefined), v)])
            | v => v
          | _ => entry.2
        jiraData ++ [(fieldConfig.jiraField, transformedValue)]) []

/-- `Object.keys(x)` throws a TypeError when `x` is `undefined` or
`null` (and only then, for the values that occur here). -/
def jsObjectKeysThrows : JSVal → Bool
  | .vnull => true
  | .vundefined => true
  | _ => false

/-- The inputs on which the source's `toJira` throws: the array-format
branch is reached with an array value and `Object.keys(config.format[0])`
is applied to `undefined` (empty format array) or `null`. -/
def toJiraThrows (value : JSVal) (config : FieldConfig) : Bool :=
  jsTruthy value &&
    (match config.format with
     | some (.vobj _) => false
     | some (.varr fs) =>
       config.type == "array" &&
         (match value with
          | .varr _ =>
            jsObjectKeysThrows (match fs with | f0 :: _ => f0 | [] => .vundefined)
          | _ => false)
     | _ => false)

/-- The entries on which `transformToJiraFormat` throws: a non-omitted
array value meeting an array format whose first element is `undefined`
(empty format) or `null`. -/
def transformValueThrows (config : FieldConfig) (v : JSVal) : Bool :=
  !(isOmittedEntryVal v) &&
    (match config.format with
     | some (.vobj _) => false
     | some (.varr fs) =>
       (match v with
        | .varr _ =>
          jsObjectKeysThrows (match fs with | f0 :: _ => f0 | [] => .vundefined)
        | _ => false)
     | _ => false)

/-! ## JiraService.resolveFieldValue
From the enhanced `JiraService` in `src/main/services/jiraService.ts`
(lines 598-622).  The descriptor is the `MetadataService` field descriptor;
only the parts the function reads are carried. -/

/-- The `schema` part of a `MetadataService` field descriptor. -/
structure JFieldSchema where
  type : String
  items : Option String

/-- A `MetadataService` field descriptor, restricted to the components
`resolveFieldValue` reads (`schema.type` and `schema.items`); the
remaining source fields (name, allowedValues, ...) do not influence it. -/
structure JFieldDescriptor where
  key : String
  required : Bool
  schema : JFieldSchema

/-- `JiraService.resolveFieldValue(field, value)`: `if (!value) return
undefined` then a switch on `field.schema.type`; `none` models returning
`undefined`. -/
def resolveFieldValue (field : JFieldDescriptor) (value : JSVal) : Option JSVal :=
  if jsTruthy value = false then none
  else
    match field.schema.type with
    | "priority" => some (.vobj [("id", value)])
    | "user" => some (.vobj [("name", value)])
    | "array" =>
      if field.schema.items == some "component" then
        match value with
        | .varr xs => some (.varr (xs.map fun id => .vobj [("id", id)]))
        | _ => some (.varr [])
      else if field.schema.items == some "version" then
        match value with
        | .varr xs => some (.varr (xs.map fun nm => .vobj [("name", nm)]))
        | _ => some (.varr [])
      else
        match value with
        | .varr _ => some value
        | v => some (.varr [v])
    | "option" => some (.vobj [("value", value)])
    | _ => some value

/-! ## Error classification
From `src/main/services/jiraService.ts`: the `ErrorCode` enum
(`src/shared/constants.ts` lines 105-114), `AppError`
(`src/shared/types.ts`), and the enhanced `JiraService.handleError` /
`JiraService.createError` (lines 995-1047). -/

/-- The `ErrorCode` enum from `src/shared/constants.ts`. -/
inductive ErrorCode where
  | AUTH_FAILED
  | NETWORK_ERROR
  | VALIDATION_ERROR
  | JIRA_API_ERROR
  | RATE_LIMIT
  | NOT_FOUND
  | FORBIDDEN
  | UNKNOWN
deriving DecidableEq

/-- `AppError` from `src/shared/types.ts`: the typed error object every
failure surfaces as (`code` is the claim's "kind"). -/
structure AppError where
  code : ErrorCode
  message : String
  details : Option JSVal

/-- The three mutually exclusive states of an axios error that
`handleError` distinguishes: a server response (`error.response` set, with
its HTTP status and body), a request that got no response
(`error.request` set), and anything else; the latter two carry
`error.message`. -/
inductive AxiosFailure where
  | response (status : Nat) (data : JSVal)
  | request (message : String)
  | other (message : String)

/-- `'k' in data` for the type guards of `handleError`: property presence
on an object (arrays and primitives have no such own property here, and
`null` is excluded by the guard itself). -/
def jsHasField (v : JSVal) (k : String) : Bool :=
  match v with
  | .vobj kvs => kvs.any (fun p => p.1 == k)
  | _ => false

/-- `Array.prototype.join` element rendering: `null` and `undefined`
become the empty string, everything else its `String(...)` form. -/
def jsJoinElem : JSVal → String
  | .vnull => ""
  | .vundefined => ""
  | v => jsToString v

/-- The message-extraction prelude of `handleError`: prefers
`data.errorMessages[0]` when it is a non-empty array, else joins
`Object.values(data.errors)` with `', '` when `errors` is a non-empty
object or array (`typeof` admits both), else the fixed fallback text.
Divergence, disclosed: when `data.errors` is `null`, the source's guard
`typeof data.errors === 'object'` passes and `Object.values(null)`
throws a raw TypeError; `jiraErrorBodyThrows` below captures exactly
those bodies, the amended classification theorem excludes them, and
this total function's value there is unreached. -/
def extractJiraErrorMessage (data : JSVal) : String :=
  if jsHasField data "errorMessages" then
    match jsGet data "errorMessages" with
    | .varr (m0 :: _) => jsToString m0
    | _ => fallbackFromErrors data
  else fallbackFromErrors data
where
  /-- The `errors` branch — `Object.values` joined with `', '` when
  non-empty — and the `'Unknown Jira API error'` default. -/
  fallbackFromErrors (data : JSVal) : String :=
    match jsGet data "errors" with
    | .vobj ((_, v0) :: kvs) =>
      String.intercalate ", " ((v0 :: kvs.map Prod.snd).map jsJoinElem)
    | .varr (v0 :: vs) => String.intercalate ", " ((v0 :: vs).map jsJoinElem)
    | _ => "Unknown Jira API error"

/-- The response bodies on which `handleError` itself crashes: the
`errorMessages` branch is not taken, `'errors' in data` holds, and
`data.errors` is `null` — `typeof null === 'object'` passes the guard
and `Object.values(null)` throws a raw TypeError before any classified
error object is built. -/
def jiraErrorBodyThrows (data : JSVal) : Bool :=
  !(jsHasField data "errorMessages" &&
      (match jsGet data "errorMessages" with
       | .varr (_ :: _) => true
       | _ => false)) &&
    jsHasField data "errors" &&
    (match jsGet data "errors" with
     | .vnull => true
     | _ => false)

/-- Lifts the crash condition to the failure shapes: only a server
response carries a body. -/
def axiosFailureThrowsRaw : AxiosFailure → Bool
  | .response _ data => jiraErrorBodyThrows data
  | .request _ => false
  | .other _ => false

/-- `JiraService.createError(code, message, details)`. -/
def createError (code : ErrorCode) (message : String) (details : Option JSVal) :
    AppError :=
  { code := code, message := message, details := details }

/-- `JiraService.handleError(error)` (enhanced class, lines 995-1042),
modelled as the `AppError` value it throws: a server response is
classified by status (401/403/404/429/other), a response-less request maps
to `NETWORK_ERROR`, anything else to `UNKNOWN`.
Divergence, disclosed: on bodies where `jiraErrorBodyThrows` holds the
source throws a raw TypeError inside the message extraction and never
reaches `createError`; the model's value there is unreached by the
amended classification theorem. -/
def handleError : AxiosFailure → AppError
  | .response status data =>
    let errorMessage := extractJiraErrorMessage data
    if status = 401 then
      createError .AUTH_FAILED "Invalid credentials" (some (.vstr errorMessage))
    else if status = 403 then
      createError .FORBIDDEN "Access forbidden - check permissions"
        (some (.vstr errorMessage))
    else if status = 404 then
      createError .NOT_FOUND "Resource not found" (some (.vstr errorMessage))
    else if status = 429 then
      createError .RATE_LIMIT "Rate limit exceeded. Please wait and try again."
        (some (.vstr errorMessage))
    else
      createError .JIRA_API_ERROR
        ("HTTP " ++ toString status ++ ": " ++ errorMessage) (some data)
  | .request message =>
    createError .NETWORK_ERROR
      "Cannot connect to Jira. Check your network connection and Jira URL."
      (some (.vstr message))
  | .other message =>
    createError .UNKNOWN "An unexpected error occurred" (some (.vstr message))

/-- The fixed classification stated by the spec ("401 maps to auth
failure, 403 to forbidden, 404 to not-found, 429 to rate-limited, any
other response status to generic remote error, no response to
network/connectivity failure, anything else to unknown"), written from
the spec's words to be compared against `handleError`. -/
def specErrorKind : AxiosFailure → ErrorCode
  | .response status _ =>
    if status = 401 then .AUTH_FAILED
    else if status = 403 then .FORBIDDEN
    else if status = 404 then .NOT_FOUND
    else if status = 429 then .RATE_LIMIT
    else .JIRA_API_ERROR
  | .request _ => .NETWORK_ERROR
  | .other _ => .UNKNOWN

/-! ## JiraService constructor
From the enhanced `JiraService` constructor (lines 496-524): the base URL
is validated with `new URL(baseUrl)` and the stored `baseUrl` is
`urlObj.origin`; a parse failure throws
`Invalid Jira base URL: <input>` before any client is created. -/

/-- Parsed components of an absolute http(s) URL. -/
structure UrlParts where
  scheme : String
  host : String
  port : String

/-- `TestStepInput` from `src/shared/types.ts`. -/
structure TestStepInput where
  step : String
  data : String
  result : String
deriving DecidableEq

/-- `CreateIssueResponse` from `src/shared/types.ts`. -/
structure CreateIssueResponse where
  id : String
  key : String
  self : String
deriving DecidableEq

/-- `StoryValidationResult` from `src/shared/types.ts` (`existsFlag` is
the source's `exists` field, renamed because `exists` is reserved in
Lean). -/
structure StoryValidationResult where
  existsFlag : Bool
  issueType : String
  summary : String
  key : String
deriving DecidableEq

/-- The data `validateIssue` reads off a fetched issue
(`issue.fields.issuetype.name`, `issue.fields.summary`, `issue.key`). -/
structure IssueData where
  key : String
  issuetypeName : String
  summary : String
deriving DecidableEq

/-- One remote call, as observable on the wire.  `deleteIssue` is part of
the remote service's API surface but the `JiraService` class defines no
method that issues it — the constructor exists in the model so that "no
rollback or delete call is issued" is expressible as a property of the
trace. -/
inductive RemoteCall where
  | createIssue (issueType : String) (summary : String)
  | addStep (testKey : String) (step : TestStepInput)
  | getIssue (issueKey : String)
  | linkIssues (linkType : String) (inwardKey : String) (outwardKey : String)
  | deleteIssue (issueKey : String)
deriving DecidableEq

/-- Whether a remote call is a delete (the only rollback primitive the
remote service offers for a created issue). -/
def RemoteCall.isDelete : RemoteCall → Bool
  | .deleteIssue _ => true
  | _ => false

/-- What the remote service answers to each kind of call the modelled
flows issue; `.error` carries the axios-level failure that the response
interceptor will classify. -/
structure RemoteEnv where
  createTest : String → Except AxiosFailure CreateIssueResponse
  addTestStep : String → TestStepInput → Except AxiosFailure Unit
  getIssue : String → Except AxiosFailure IssueData
  linkIssues : String → String → String → Except AxiosFailure Unit

/-- `axios.isAxiosError(error)` checks the `isAxiosError` marker axios
sets on the errors it constructs.  The plain object literals returned by
`createError` (which is what the response interceptor throws) never carry
that marker, so the check is false on every error the interceptor
produces. -/
def appErrorIsAxiosError (_e : AppError) : Bool := false

/-- `(error as AxiosError).response?.status` read off a thrown value that
is in fact a plain `AppError` object: the `response` property is absent,
so the optional chain yields `undefined`. -/
def appErrorResponseStatus (_e : AppError) : Option Nat := none

/-- `JiraService.createTest(input)` (enhanced class, lines 681-707): one
`POST /rest/api/2/issue` call; a failure surfaces as the interceptor's
classified error.  The wire payload is assembled from the input fields;
the trace records the call with the parts the claims observe. -/
def runCreateTest (env : RemoteEnv) (tr : List RemoteCall) (summary : String) :
    Except AppError CreateIssueResponse × List RemoteCall :=
  match env.createTest summary with
  | .ok r => (.ok r, tr ++ [RemoteCall.createIssue "Test" summary])
  | .error ax =>
    (.error (handleError ax), tr ++ [RemoteCall.createIssue "Test" summary])

/-- `JiraService.addTestStep(testKey, step)` (lines 715-727): one
`PUT /rest/raven/1.0/api/test/{testKey}/step` call. -/
def runAddTestStep (env : RemoteEnv) (tr : List RemoteCall) (testKey : String)
    (step : TestStepInput) : Except AppError Unit × List RemoteCall :=
  match env.addTestStep testKey step with
  | .ok _ => (.ok (), tr ++ [RemoteCall.addStep testKey step])
  | .error ax => (.error (handleError ax), tr ++ [RemoteCall.addStep testKey step])

/-- `JiraService.validateIssue(issueKey)` (enhanced class, lines 630-659):
one `GET /rest/api/2/issue/{issueKey}` call.  On success it reports
`exists: true` with the issue's type and summary.  On failure the `catch`
tests `axios.isAxiosError(error) && error.response?.status === 404` — but
the caught value is the plain object the response interceptor threw, so
the test is false and the error is rethrown; the `exists: false` branch is
unreachable. -/
def runValidateIssue (env : RemoteEnv) (tr : List RemoteCall) (issueKey : String) :
    Except AppError StoryValidationResult × List RemoteCall :=
  let tr' := tr ++ [RemoteCall.getIssue issueKey]
  match env.getIssue issueKey with
  | .ok issue =>
    (.ok { existsFlag := true, issueType := issue.issuetypeName,
           summary := issue.summary, key := issue.key }, tr')
  | .error ax =>
    let e := handleError ax
    if appErrorIsAxiosError e && (appErrorResponseStatus e == some 404) then
      (.ok { existsFlag := false, issueType := "", summary := "", key := issueKey }, tr')
    else
      (.error e, tr')

/-- The IPC `Result<T>` shape from `src/shared/types.ts`:
`{success:true, data}` or `{success:false, error}`. -/
inductive IpcResult (α : Type) where
  | success (data : α)
  | failure (error : AppError)

/-- Whether an IPC result is the success variant. -/
def IpcResult.isSuccess {α : Type} : IpcResult α → Bool
  | .success _ => true
  | .failure _ => false

/-- The step-attachment loop of the `CREATE_TEST` handler:
`for (const step of testInput.steps) await jiraService.addTestStep(...)`.
The first failing attachment throws out of the loop; later steps are not
attempted. -/
def attachStepsLoop (env : RemoteEnv) (testKey : String) :
    List TestStepInput → List RemoteCall → Except AppError Unit × List RemoteCall
  | [], tr => (.ok (), tr)
  | s :: rest, tr =>
    match (runAddTestStep env tr testKey s).1 with
    | .ok _ => attachStepsLoop env testKey rest (runAddTestStep env tr testKey s).2
    | .error e => (.error e, (runAddTestStep env tr testKey s).2)

/-- The `CREATE_TEST` IPC handler (`src/main/ipc/testHandlers.ts` lines
277-296): create the test, then attach each step in order; the entire
body sits in one `try`, and any thrown error — including a step-attachment
failure after a successful creation — is returned as
`{success:false, error}`.  No rollback of the created issue is attempted
(the service has no delete method), and the created key is not part of
the failure result. -/
def createTestHandler (env : RemoteEnv) (summary : String)
    (steps : List TestStepInput) :
    IpcResult CreateIssueResponse × List RemoteCall :=
  match (runCreateTest env [] summary).1 with
  | .error e => (.failure e, (runCreateTest env [] summary).2)
  | .ok test =>
    match (attachStepsLoop env test.key steps (runCreateTest env [] summary).2).1 with
    | .ok _ =>
      (.success test,
        (attachStepsLoop env test.key steps (runCreateTest env [] summary).2).2)
    | .error e =>
      (.failure e,
        (attachStepsLoop env test.key steps (runCreateTest env [] summary).2).2)

/-! ## Batch Validator (IssueKeyValidator)
From `src/main/services/suggestionService.ts` lines 107-211: the
`IssueKeyValidator` class is the spec's Batch Validator.  It reaches the
remote service through the renderer API's `validateStory`, i.e. the
`VALIDATE_STORY` IPC handler (`testHandlers.ts` lines 46-57) around
`JiraService.validateIssue` — one limiter acquisition per lookup, with no
nested acquisition.  Its session cache is keyed by the uppercased
identifier and stores negative results too; a format check short-circuits
malformed identifiers without a remote call. -/

/-- Any remote failure makes `runValidateIssue` reject: the response
interceptor throws a plain classified object, so the `catch`'s
`axios.isAxiosError` test is false even for a 404 and the error is
rethrown. -/
lemma runValidateIssue_error (env : RemoteEnv) (tr : List RemoteCall)
    (k : String) (ax : AxiosFailure) (hfail : env.getIssue k = .error ax) :
    (runValidateIssue env tr k).1 = .error (handleError ax) := by
  unfold runValidateIssue
  simp [hfail, appErrorIsAxiosError]

/-- Each validation lookup appends exactly one remote call, whatever the
outcome. -/
lemma runValidateIssue_trace (env : RemoteEnv) (tr : List RemoteCall)
    (k : String) :
    (runValidateIssue env tr k).2 = tr ++ [RemoteCall.getIssue k] := by
  unfold runValidateIssue
  cases h : env.getIssue k <;> simp [h, appErrorIsAxiosError]

/-- Models `issueKey.toUpperCase()` (ASCII; locale-specific case mapping is not
exercised by issue keys). -/
def upperString (s : String) : String := ⟨s.data.map Char.toUpper⟩

/-- A character matched by the regex class `[A-Z]`. -/
def isAsciiUpper (c : Char) : Bool := 'A' ≤ c && c ≤ 'Z'

/-- The regex `/^[A-Z]+-\d+$/` on an uppercased character list: one or
more uppercase letters, a dash, one or more digits. -/
def keyFormatChars (cs : List Char) : Bool :=
  !(cs.takeWhile isAsciiUpper).isEmpty &&
    (match cs.drop (cs.takeWhile isAsciiUpper).length with
     | '-' :: ds => !ds.isEmpty && ds.all Char.isDigit
     | _ => false)

/-- Models `IssueKeyValidator.isValidKeyFormat(key)`:
`/^[A-Z]+-\d+$/.test(key.toUpperCase())`. -/
def isValidKeyFormat (key : String) : Bool :=
  keyFormatChars (key.data.map Char.toUpper)

/-- A `validationCache` entry: `{valid, issueType?, summary?}`. -/
structure CachedValidation where
  valid : Bool
  issueType : Option String
  summary : Option String
deriving DecidableEq

/-- The result shape of `validateIssueKey`:
`{valid, error?, issueType?, summary?}`. -/
structure KeyValidationResult where
  valid : Bool
  error : Option String
  issueType : Option String
  summary : Option String
deriving DecidableEq

/-- Models `api.validateStory(storyKey)`: the `VALIDATE_STORY` IPC handler
wraps `JiraService.validateIssue` in a try/catch and returns
`{success:true, data}` or `{success:false, error}` — it never rejects. -/
def ipcValidateStory (env : RemoteEnv) (tr : List RemoteCall)
    (storyKey : String) : IpcResult StoryValidationResult × List RemoteCall :=
  match (runValidateIssue env tr storyKey).1 with
  | .ok r => (.success r, (runValidateIssue env tr storyKey).2)
  | .error e => (.failure e, (runValidateIssue env tr storyKey).2)

/-- The type-mismatch message:
`Expected ${expectedIssueTypes.join(' or ')}, got ${t}`. -/
def typeMismatchMsg (types : List String) (t : String) : String :=
  "Expected " ++ String.intercalate " or " types ++ ", got " ++ t

/-- The cache-miss path of `validateIssueKey`: one `api.validateStory`
call; an existing issue caches `{valid:true, issueType, summary}` and is
then optionally type-checked; every other outcome caches `{valid:false}`
(the negative result), the error text preferring a non-empty
`result.error.message` over `'Issue not found'`. -/
def validateIssueKeyMiss (env : RemoteEnv)
    (cache : List (String × CachedValidation)) (tr : List RemoteCall)
    (issueKey : String) (expectedIssueTypes : Option (List String)) :
    KeyValidationResult × List (String × CachedValidation) × List RemoteCall :=
  match (ipcValidateStory env tr (upperString issueKey)).1 with
  | .success r =>
    if r.existsFlag then
      match expectedIssueTypes with
      | some types =>
        if !(types.contains r.issueType) then
          ({ valid := false, error := some (typeMismatchMsg types r.issueType),
             issueType := some r.issueType, summary := some r.summary },
           cache ++ [(upperString issueKey,
             { valid := true, issueType := some r.issueType,
               summary := some r.summary })],
           (ipcValidateStory env tr (upperString issueKey)).2)
        else
          ({ valid := true, error := none, issueType := some r.issueType,
             summary := some r.summary },
           cache ++ [(upperString issueKey,
             { valid := true, issueType := some r.issueType,
               summary := some r.summary })],
           (ipcValidateStory env tr (upperString issueKey)).2)
      | none =>
        ({ valid := true, error := none, issueType := some r.issueType,
           summary := some r.summary },
         cache ++ [(upperString issueKey,
           { valid := true, issueType := some r.issueType,
             summary := some r.summary })],
         (ipcValidateStory env tr (upperString issueKey)).2)
    else
      ({ valid := false, error := some "Issue not found",
         issueType := none, summary := none },
       cache ++ [(upperString issueKey,
         { valid := false, issueType := none, summary := none })],
       (ipcValidateStory env tr (upperString issueKey)).2)
  | .failure e =>
    ({ valid := false,
       error := some (if e.message ≠ "" then e.message else "Issue not found"),
       issueType := none, summary := none },
     cache ++ [(upperString issueKey,
       { valid := false, issueType := none, summary := none })],
     (ipcValidateStory env tr (upperString issueKey)).2)

/-- The cache-hit path of `validateIssueKey`: positives, negatives and
type-filter mismatches are served without a remote call
(`cached.issueType!` is modelled with a default, as valid entries always
carry a type).  The source's `catch` cannot fire: `api.validateStory`
resolves with a `Result` on every path, so every branch returns. -/
def validateIssueKeyHit
    (cache : List (String × CachedValidation)) (tr : List RemoteCall)
    (cached : CachedValidation) (expectedIssueTypes : Option (List String)) :
    KeyValidationResult × List (String × CachedValidation) × List RemoteCall :=
  if !cached.valid then
    ({ valid := false, error := some "Issue not found",
       issueType := none, summary := none }, cache, tr)
  else
    match expectedIssueTypes with
    | some types =>
      if !(types.contains (cached.issueType.getD "")) then
        ({ valid := false,
           error := some (typeMismatchMsg types (cached.issueType.getD "")),
           issueType := cached.issueType, summary := none }, cache, tr)
      else
        ({ valid := true, error := none, issueType := cached.issueType,
           summary := cached.summary }, cache, tr)
    | none =>
      ({ valid := true, error := none, issueType := cached.issueType,
         summary := cached.summary }, cache, tr)

/-- Models `IssueKeyValidator.validateIssueKey(issueKey, expectedIssueTypes?)`,
threading the session cache and the remote-call trace: format check
first (no call, nothing cached); then the cache via the hit path above;
then the cache-miss path. -/
def validateIssueKey (env : RemoteEnv)
    (cache : List (String × CachedValidation)) (tr : List RemoteCall)
    (issueKey : String) (expectedIssueTypes : Option (List String)) :
    KeyValidationResult × List (String × CachedValidation) × List RemoteCall :=
  if !(isValidKeyFormat issueKey) then
    ({ valid := false,
       error := some "Invalid issue key format (expected: ABC-123)",
       issueType := none, summary := none }, cache, tr)
  else
    match mapGet cache (upperString issueKey) with
    | some cached => validateIssueKeyHit cache tr cached expectedIssueTypes
    | none => validateIssueKeyMiss env cache tr issueKey expectedIssueTypes

/-- The recursion behind `validateIssueKeys`: one `validateIssueKey` per
key, in the sequential interleaving of the `Promise.all` fan-out (the
per-key outcomes and batch totality proved below are
interleaving-independent; racing uncached duplicates would only add the
redundant remote call §5 of the spec already documents). -/
def validateIssueKeysGo (env : RemoteEnv) (expected : Option (List String)) :
    List String → List (String × CachedValidation) → List RemoteCall →
      List (String × KeyValidationResult) ×
        List (String × CachedValidation) × List RemoteCall
  | [], cache, tr => ([], cache, tr)
  | k :: rest, cache, tr =>
    ((k, (validateIssueKey env cache tr k expected).1) ::
        (validateIssueKeysGo env expected rest
          (validateIssueKey env cache tr k expected).2.1
          (validateIssueKey env cache tr k expected).2.2).1,
      (validateIssueKeysGo env expected rest
        (validateIssueKey env cache tr k expected).2.1
        (validateIssueKey env cache tr k expected).2.2).2)

/-- Models `IssueKeyValidator.validateIssueKeys(issueKeys, expectedIssueTypes?)`:
fans `validateIssueKey` out over the keys and joins with `Promise.all`;
since `validateIssueKey` returns on every path the join always fulfills,
and `results.set(key, result)` records one entry per key. -/
def validateIssueKeys (env : RemoteEnv) (keys : List String)
    (expected : Option (List String))
    (cache : List (String × CachedValidation)) (tr : List RemoteCall) :
    List (String × KeyValidationResult) ×
      List (String × CachedValidation) × List RemoteCall :=
  validateIssueKeysGo env expected keys cache tr

/-- Looking a key up in a cons-cell cache checks the head entry first. -/
lemma mapGet_cons {α : Type} (p : String × α) (m : List (String × α))
    (k : String) :
    mapGet (p :: m) k = if p.1 == k then some p.2 else mapGet m k := by
  unfold mapGet
  cases hpk : (p.1 == k) <;> simp [List.find?, hpk]

/-- A lookup that misses the first cache continues into the second. -/
lemma mapGet_append_none {α : Type} (m₁ m₂ : List (String × α)) (k : String)
    (h : mapGet m₁ k = none) : mapGet (m₁ ++ m₂) k = mapGet m₂ k := by
  induction m₁ with
  | nil => rfl
  | cons p rest ih =>
    rw [mapGet_cons] at h
    rw [List.cons_append, mapGet_cons]
    cases hpk : (p.1 == k)
    · simp only [hpk] at h ⊢
      simp only [Bool.false_eq_true, if_false] at h ⊢
      exact ih h
    · simp [hpk] at h

/-- Appending a fresh entry for a previously uncached key makes its lookup
hit that entry. -/
lemma mapGet_append_self {α : Type} (m : List (String × α)) (k : String)
    (v : α) (h : mapGet m k = none) : mapGet (m ++ [(k, v)]) k = some v := by
  rw [mapGet_append_none m [(k, v)] k h, mapGet_cons]
  simp

/-- Appending an entry for one key leaves every other key's lookup
unchanged. -/
lemma mapGet_append_ne {α : Type} (m : List (String × α)) (k k' : String)
    (v : α) (h : k' ≠ k) : mapGet (m ++ [(k, v)]) k' = mapGet m k' := by
  induction m with
  | nil =>
    rw [List.nil_append, mapGet_cons]
    simp [Ne.symm h]
  | cons p rest ih =>
    rw [List.cons_append, mapGet_cons, mapGet_cons]
    cases hpk : (p.1 == k') <;> simp [hpk, ih]

/-- The `validateStory` IPC call forwards the single remote call of the
underlying lookup, whatever the outcome. -/
lemma ipcValidateStory_trace (env : RemoteEnv) (tr : List RemoteCall)
    (k : String) :
    (ipcValidateStory env tr k).2 = tr ++ [RemoteCall.getIssue k] := by
  unfold ipcValidateStory
  cases h : (runValidateIssue env tr k).1 <;>
    exact runValidateIssue_trace env tr k

/-- A remote failure surfaces from the `VALIDATE_STORY` handler as the
failure variant carrying the classified error. -/
lemma ipcValidateStory_fail (env : RemoteEnv) (tr : List RemoteCall)
    (k : String) (ax : AxiosFailure) (hfail : env.getIssue k = .error ax) :
    (ipcValidateStory env tr k).1 = .failure (handleError ax) := by
  unfold ipcValidateStory
  rw [runValidateIssue_error env tr k ax hfail]

/-- A malformed identifier is rejected up front: no remote call, no cache
write. -/
lemma validateIssueKey_badformat (env : RemoteEnv)
    (cache : List (String × CachedValidation)) (tr : List RemoteCall)
    (key : String) (expected : Option (List String))
    (h : isValidKeyFormat key = false) :
    validateIssueKey env cache tr key expected =
      ({ valid := false,
         error := some "Invalid issue key format (expected: ABC-123)",
         issueType := none, summary := none }, cache, tr) := by
  unfold validateIssueKey
  rw [h]
  rfl

/-- A cache hit routes to the hit path, discarding nothing. -/
lemma validateIssueKey_hit_eq (env : RemoteEnv)
    (cache : List (String × CachedValidation)) (tr : List RemoteCall)
    (issueKey : String) (expected : Option (List String))
    (c : CachedValidation) (hfmt : isValidKeyFormat issueKey = true)
    (hhit : mapGet cache (upperString issueKey) = some c) :
    validateIssueKey env cache tr issueKey expected =
      validateIssueKeyHit cache tr c expected := by
  unfold validateIssueKey
  rw [hfmt, hhit]
  rfl

/-- The hit path leaves both the cache and the remote-call trace
untouched, whatever the entry holds. -/
lemma validateIssueKeyHit_state
    (cache : List (String × CachedValidation)) (tr : List RemoteCall)
    (c : CachedValidation) (expected : Option (List String)) :
    (validateIssueKeyHit cache tr c expected).2.1 = cache ∧
      (validateIssueKeyHit cache tr c expected).2.2 = tr := by
  unfold validateIssueKeyHit
  refine ⟨?_, ?_⟩ <;> (repeat' split) <;> rfl

/-- The hit path serves a negative entry as `Issue not found`. -/
lemma validateIssueKeyHit_neg
    (cache : List (String × CachedValidation)) (tr : List RemoteCall)
    (c : CachedValidation) (expected : Option (List String))
    (hneg : c.valid = false) :
    (validateIssueKeyHit cache tr c expected).1 =
      { valid := false, error := some "Issue not found",
        issueType := none, summary := none } := by
  unfold validateIssueKeyHit
  rw [hneg]
  rfl

/-- A cache hit leaves both the cache and the remote-call trace
untouched: the cached result is served without a remote lookup. -/
lemma validateIssueKey_hit_state (env : RemoteEnv)
    (cache : List (String × CachedValidation)) (tr : List RemoteCall)
    (issueKey : String) (expected : Option (List String))
    (c : CachedValidation) (hfmt : isValidKeyFormat issueKey = true)
    (hhit : mapGet cache (upperString issueKey) = some c) :
    (validateIssueKey env cache tr issueKey expected).2.1 = cache ∧
      (validateIssueKey env cache tr issueKey expected).2.2 = tr := by
  rw [validateIssueKey_hit_eq env cache tr issueKey expected c hfmt hhit]
  exact validateIssueKeyHit_state cache tr c expected

/-- A negative cache entry is served as `Issue not found` without a
remote lookup. -/
lemma validateIssueKey_hit_neg (env : RemoteEnv)
    (cache : List (String × CachedValidation)) (tr : List RemoteCall)
    (issueKey : String) (expected : Option (List String))
    (c : CachedValidation) (hfmt : isValidKeyFormat issueKey = true)
    (hhit : mapGet cache (upperString issueKey) = some c)
    (hneg : c.valid = false) :
    (validateIssueKey env cache tr issueKey expected).1 =
      { valid := false, error := some "Issue not found",
        issueType := none, summary := none } := by
  rw [validateIssueKey_hit_eq env cache tr issueKey expected c hfmt hhit]
  exact validateIssueKeyHit_neg cache tr c expected hneg

/-- A well-formed, uncached identifier takes the cache-miss path. -/
lemma validateIssueKey_miss_eq (env : RemoteEnv)
    (cache : List (String × CachedValidation)) (tr : List RemoteCall)
    (issueKey : String) (expected : Option (List String))
    (hfmt : isValidKeyFormat issueKey = true)
    (hmiss : mapGet cache (upperString issueKey) = none) :
    validateIssueKey env cache tr issueKey expected =
      validateIssueKeyMiss env cache tr issueKey expected := by
  unfold validateIssueKey
  rw [hfmt, hmiss]
  rfl

/-- The cache-miss path issues exactly one remote call. -/
lemma validateIssueKeyMiss_trace (env : RemoteEnv)
    (cache : List (String × CachedValidation)) (tr : List RemoteCall)
    (issueKey : String) (expected : Option (List String)) :
    (validateIssueKeyMiss env cache tr issueKey expected).2.2 =
      tr ++ [RemoteCall.getIssue (upperString issueKey)] := by
  unfold validateIssueKeyMiss
  repeat' split
  all_goals exact ipcValidateStory_trace env tr (upperString issueKey)

/-- The cache-miss path appends exactly one entry, keyed by the
uppercased identifier. -/
lemma validateIssueKeyMiss_cache_shape (env : RemoteEnv)
    (cache : List (String × CachedValidation)) (tr : List RemoteCall)
    (issueKey : String) (expected : Option (List String)) :
    ∃ entry : CachedValidation,
      (validateIssueKeyMiss env cache tr issueKey expected).2.1 =
        cache ++ [(upperString issueKey, entry)] := by
  unfold validateIssueKeyMiss
  repeat' split
  all_goals exact ⟨_, rfl⟩

/-- When the remote lookup fails, the cache-miss path caches the
negative result `{valid: false}` for the uppercased identifier. -/
lemma validateIssueKeyMiss_fail_cache (env : RemoteEnv)
    (cache : List (String × CachedValidation)) (tr : List RemoteCall)
    (issueKey : String) (expected : Option (List String))
    (ax : AxiosFailure)
    (hfail : env.getIssue (upperString issueKey) = .error ax) :
    (validateIssueKeyMiss env cache tr issueKey expected).2.1 =
      cache ++ [(upperString issueKey,
        { valid := false, issueType := none, summary := none })] := by
  unfold validateIssueKeyMiss
  rw [ipcValidateStory_fail env tr (upperString issueKey) ax hfail]

/-- When the identifier is well formed, the cache holds nothing positive
for it and the remote lookup fails, `validateIssueKey` returns an invalid
result that carries an error reason. -/
lemma validateIssueKey_fail_result (env : RemoteEnv)
    (cache : List (String × CachedValidation)) (tr : List RemoteCall)
    (issueKey : String) (expected : Option (List String)) (ax : AxiosFailure)
    (hfmt : isValidKeyFormat issueKey = true)
    (hncc : ∀ c, mapGet cache (upperString issueKey) = some c →
      c.valid = false)
    (hfail : env.getIssue (upperString issueKey) = .error ax) :
    (validateIssueKey env cache tr issueKey expected).1.valid = false ∧
      (validateIssueKey env cache tr issueKey expected).1.error.isSome
        = true := by
  cases hm : mapGet cache (upperString issueKey) with
  | some c =>
    rw [validateIssueKey_hit_neg env cache tr issueKey expected c hfmt hm
      (hncc c hm)]
    exact ⟨rfl, rfl⟩
  | none =>
    rw [validateIssueKey_miss_eq env cache tr issueKey expected hfmt hm]
    unfold validateIssueKeyMiss
    rw [ipcValidateStory_fail env tr (upperString issueKey) ax hfail]
    exact ⟨rfl, rfl⟩

/-- Validating one key cannot plant a positive cache entry for an
identifier whose remote lookup fails: the none-or-negative cache
condition for that identifier is preserved. -/
lemma validateIssueKey_preserves_neg (env : RemoteEnv)
    (cache : List (String × CachedValidation)) (tr : List RemoteCall)
    (keyB : String) (expected : Option (List String)) (K : String)
    (ax : AxiosFailure) (hfail : env.getIssue K = .error ax)
    (hncc : ∀ c, mapGet cache K = some c → c.valid = false) :
    ∀ c, mapGet (validateIssueKey env cache tr keyB expected).2.1 K = some c →
      c.valid = false := by
  cases hfmt : isValidKeyFormat keyB with
  | false =>
    rw [validateIssueKey_badformat env cache tr keyB expected hfmt]
    exact hncc
  | true =>
    cases hm : mapGet cache (upperString keyB) with
    | some c0 =>
      rw [(validateIssueKey_hit_state env cache tr keyB expected c0 hfmt hm).1]
      exact hncc
    | none =>
      rw [validateIssueKey_miss_eq env cache tr keyB expected hfmt hm]
      by_cases hK : upperString keyB = K
      · intro c hcK
        rw [validateIssueKeyMiss_fail_cache env cache tr keyB expected ax
          (hK ▸ hfail)] at hcK
        rw [hK, mapGet_append_self cache K _ (hK ▸ hm)] at hcK
        injection hcK with h
        exact h ▸ rfl
      · obtain ⟨entry, hc⟩ :=
          validateIssueKeyMiss_cache_shape env cache tr keyB expected
        rw [hc]
        intro c hcK
        rw [mapGet_append_ne cache (upperString keyB) K entry
          (fun he => hK he.symm)] at hcK
        exact hncc c hcK

/-- The batch keeps its keys: the fan-out produces one labelled result
per requested key, in order, whatever each lookup did. -/
lemma validateIssueKeysGo_keys (env : RemoteEnv)
    (expected : Option (List String)) :
    ∀ (keys : List String) (cache : List (String × CachedValidation))
      (tr : List RemoteCall),
      ((validateIssueKeysGo env expected keys cache tr).1).map Prod.fst
        = keys := by
  intro keys
  induction keys with
  | nil => intro cache tr; rfl
  | cons k rest ih =>
    intro cache tr
    simp only [validateIssueKeysGo, List.map_cons]
    rw [ih]

/-- An identifier in the batch whose remote lookup fails still gets its
own labelled invalid-with-reason result, whatever else is in the batch
and wherever the key sits in it. -/
lemma validateIssueKeysGo_fail_mem (env : RemoteEnv)
    (expected : Option (List String)) (k : String) (ax : AxiosFailure)
    (hfail : env.getIssue (upperString k) = .error ax)
    (hfmt : isValidKeyFormat k = true) :
    ∀ (keys : List String) (cache : List (String × CachedValidation))
      (tr : List RemoteCall), k ∈ keys →
      (∀ c, mapGet cache (upperString k) = some c → c.valid = false) →
      ∃ r, (k, r) ∈ (validateIssueKeysGo env expected keys cache tr).1 ∧
        r.valid = false ∧ r.error.isSome = true := by
  intro keys
  induction keys with
  | nil => intro cache tr hk; exact absurd hk (List.not_mem_nil k)
  | cons k0 rest ih =>
    intro cache tr hk hncc
    rcases List.mem_cons.mp hk with heq | hmem
    · subst heq
      obtain ⟨hval, herr⟩ :=
        validateIssueKey_fail_result env cache tr k expected ax hfmt hncc hfail
      refine ⟨(validateIssueKey env cache tr k expected).1, ?_, hval, herr⟩
      simp only [validateIssueKeysGo]
      exact List.mem_cons_self _ _
    · have hpres := validateIssueKey_preserves_neg env cache tr k0 expected
        (upperString k) ax hfail hncc
      obtain ⟨r, hmem2, hval, herr⟩ :=
        ih (validateIssueKey env cache tr k0 expected).2.1
          (validateIssueKey env cache tr k0 expected).2.2 hmem hpres
      refine ⟨r, ?_, hval, herr⟩
      simp only [validateIssueKeysGo]
      exact List.mem_cons_of_mem _ hmem2

/-! ## Concurrency gate
`private limiter = pLimit(RATE_LIMITS.MAX_CONCURRENT_REQUESTS)`
(`jiraService.ts` line 489; `RATE_LIMITS` in `src/shared/constants.ts`
lines 131-134).  `p-limit` admits at most `cap` submitted callbacks at a
time and queues the rest FIFO; every remote-calling method of the service
wraps its single `await this.client.*` in `this.limiter(...)`.  The gate
is modelled as a counter transition system: `queued` callbacks awaiting
admission, `active` admitted callbacks currently running, and `inFlight`
remote calls currently outstanding (each active callback has at most one
call outstanding at a time, since each awaits its one client call). -/

/-- `RATE_LIMITS.MAX_CONCURRENT_REQUESTS` from `src/shared/constants.ts`. -/
def MAX_CONCURRENT_REQUESTS : Nat := 5

/-- The observable state of the limiter and the wire. -/
structure GateState where
  queued : Nat
  active : Nat
  inFlight : Nat
deriving DecidableEq

/-- The events of the gate: a caller submits a callback; the limiter
admits a queued callback while under capacity; an admitted callback
issues its remote call; a remote call completes; an admitted callback
whose call is no longer outstanding returns, freeing its slot. -/
inductive GateStep (cap : Nat) : GateState → GateState → Prop where
  | submit (s : GateState) :
      GateStep cap s { s with queued := s.queued + 1 }
  | acquire (s : GateState) (hq : 0 < s.queued) (ha : s.active < cap) :
      GateStep cap s { queued := s.queued - 1, active := s.active + 1,
                       inFlight := s.inFlight }
  | beginCall (s : GateState) (h : s.inFlight < s.active) :
      GateStep cap s { s with inFlight := s.inFlight + 1 }
  | endCall (s : GateState) (h : 0 < s.inFlight) :
      GateStep cap s { s with inFlight := s.inFlight - 1 }
  | finish (s : GateState) (h : s.inFlight < s.active) :
      GateStep cap s { s with active := s.active - 1 }

/-- States reachable from the idle system by any interleaving of gate
events. -/
inductive GateReach (cap : Nat) : GateState → Prop where
  | init : GateReach cap { queued := 0, active := 0, inFlight := 0 }
  | step (s t : GateState) (hs : GateReach cap s) (hst : GateStep cap s t) :
      GateReach cap t

/-- The remote-calling methods of the enhanced `JiraService`, each paired
with whether its `client` call is wrapped in `this.limiter(...)` —
transcribed from `jiraService.ts` (methods whose cache fast path returns
without a remote call still route the remote call itself through the
limiter). -/
def jiraServiceLimiterWrapped : List (String × Bool) :=
  [("createTest", true), ("addTestStep", true), ("getTestSteps", true),
   ("createTestSet", true), ("addTestsToSet", true),
   ("createTestExecution", true), ("addTestsToExecution", true),
   ("linkIssues", true), ("validateIssue", true), ("validateIssues", true),
   ("searchTestsByLabel", true), ("getTestsByKeys", true),
   ("linkToTestPlan", true), ("getProject", true),
   ("getIssueLinkTypes", true), ("getIssueTypes", true),
   ("getIssueScheme", true), ("getCreateMetaByTypeId", true),
   ("getAllFields", true), ("getPriorities", true),
   ("getLabelSuggestions", true), ("getComponents", true),
   ("getVersions", true), ("linkTestToStory", true),
   ("unlinkTestFromStory", true), ("getTestStoryLinks", true)]

/-! ## Metadata cache
From the `MetadataService` class (second class in
`src/main/services/credentialService.ts`): the field descriptor, the
per-issue-type metadata, and `getCommonFields` (lines 233-274). -/

/-- A `MetadataService` field descriptor, restricted to the components
`getCommonFields` returns and the claims inspect (`key`, `name`, `type`,
`required`); the schema/allowedValues parts are not read by it. -/
structure MFieldDescriptor where
  key : String
  name : String
  type : String
  required : Bool
deriving DecidableEq

/-- `IssueTypeMetadata`: the per-type cache entry built by
`cacheIssueTypeMetadata` — `fields` is the `Map<string, FieldDescriptor>`
(modelled as an association list in insertion order) and `requiredFields`
the keys collected, in remote-declared order, from descriptors with
`required` set. -/
structure MIssueTypeMetadata where
  id : String
  name : String
  fields : List (String × MFieldDescriptor)
  requiredFields : List String

/-- The fixed `commonFieldKeys` allowlist inside `getCommonFields`. -/
def commonFieldKeys : List String :=
  ["summary", "description", "priority", "assignee", "reporter", "labels",
   "components", "fixVersions", "duedate", "environment",
   "customfield_13900", "customfield_12425"]

/-- `MetadataService.getCommonFields(issueTypeId)` applied to the cached
metadata of that type: first every key of `requiredFields` whose
descriptor exists and is *not* in the allowlist, then every allowlist key
present in the schema, concatenated required-part first. -/
def getCommonFields (metadata : MIssueTypeMetadata) : List MFieldDescriptor :=
  (metadata.requiredFields.filterMap fun key =>
    match mapGet metadata.fields key with
    | some field => if !(commonFieldKeys.contains key) then some field else none
    | none => none) ++
  (commonFieldKeys.filterMap fun key => mapGet metadata.fields key)

/-! ## Concrete fixtures used by witnesses and counterexamples -/

/-- A single-reference field config (object wrapper format `{id}`), the
shape the mapping file uses for `priority`. -/
def priorityRefConfig : FieldConfig :=
  { jiraField := "priority", type := "object", required := false,
    format := some (.vobj [("id", .vstr "string")]) }

/-- A list-of-reference field config (array wrapper format `[{name}]`),
the shape the mapping file uses for `components`. -/
def componentsListConfig : FieldConfig :=
  { jiraField := "components", type := "array", required := false,
    format := some (.varr [.vobj [("name", .vstr "string")]]) }

/-! ## Claim C9 -/

/-- Claim C9: `resolveFieldValue` returns `undefined` (the field is
omitted) for every falsy input value — including `0`, `false` and the
empty string, not only `null`/`undefined` — regardless of the
descriptor's schema type. -/
theorem resolveFieldValue_falsy_omitted (field : JFieldDescriptor) (v : JSVal)
    (h : jsTruthy v = false) : resolveFieldValue field v = none := by
  unfold resolveFieldValue
  simp [h]

/-- Witness for C9 at the number `0` against a priority descriptor. -/
theorem resolveFieldValue_falsy_omitted_witness :
    jsTruthy (JSVal.vnum 0) = false ∧
      resolveFieldValue
        { key := "priority", required := false,
          schema := { type := "priority", items := none } } (JSVal.vnum 0) = none :=
  ⟨rfl, resolveFieldValue_falsy_omitted _ _ rfl⟩

/-! ## Claim C6 -/

/-- Counterexample to C6: for a failed call whose response body is
`{errors: null}` the source does *not* surface a typed error object —
`typeof null === 'object'` passes the type guard and
`Object.values(null)` throws a raw TypeError out of `handleError`
(enhanced class, lines 1010-1016), so the caller receives the raw
exception instead of a classified `{code, message, details}`. -/
theorem handleError_errors_null_raw_typeerror :
    axiosFailureThrowsRaw (.response 500 (JSVal.vobj [("errors", JSVal.vnull)]))
        = true ∧
      jsHasField (JSVal.vobj [("errors", JSVal.vnull)]) "errors" = true ∧
      jsGet (JSVal.vobj [("errors", JSVal.vnull)]) "errors" = JSVal.vnull :=
  ⟨rfl, rfl, rfl⟩

/-- Claim C6 as amended: for every failed remote call except those whose
response body has a null `errors` property (where `handleError` itself
crashes with a raw TypeError before classifying), the surfaced error is
the typed `{code, message, details}` object built by `createError`, and
the kind is the fixed classification of the spec: 401 to auth failure,
403 to forbidden, 404 to not-found, 429 to rate-limited, any other
response status to generic remote error, a request with no response to
network failure, and anything else to unknown. -/
theorem handleError_classification_amended :
    ∀ e : AxiosFailure, axiosFailureThrowsRaw e = false →
      (handleError e).code = specErrorKind e := by
  intro e _
  cases e with
  | response status data =>
    simp only [handleError, specErrorKind, createError]
    split_ifs <;> rfl
  | request m => rfl
  | other m => rfl

/-- Witness for C6 (amended) at a rate-limited response with an empty
object body. -/
theorem handleError_classification_amended_witness :
    axiosFailureThrowsRaw (.response 429 (JSVal.vobj [])) = false ∧
      (handleError (.response 429 (JSVal.vobj []))).code
        = specErrorKind (.response 429 (JSVal.vobj [])) :=
  ⟨rfl, handleError_classification_amended _ rfl⟩

/-! ## Claim C8 -/

/-- An object literal is truthy. -/
lemma jsTruthy_vobj (kvs : List (String × JSVal)) :
    jsTruthy (JSVal.vobj kvs) = true := rfl

/-- Property access on an object whose first entry has the accessed key
yields that entry's value. -/
lemma jsGet_head (k : String) (v : JSVal) (kvs : List (String × JSVal)) :
    jsGet (JSVal.vobj ((k, v) :: kvs)) k = v := by
  simp [jsGet, List.find?_cons]

/-- Claim C8: for every single-reference descriptor (object wrapper
format such as `{id}` or `{name}`) and every non-empty scalar `v`
(non-empty means truthy: the empty string, `0` and `false` are omitted by
`toJira` per claim C9's policy), the transform round-trips:
`fromJira(toJira(v, d), d) == v`. -/
theorem singleRef_roundtrip (config : FieldConfig) (k : String) (fv : JSVal)
    (kvs : List (String × JSVal))
    (hf : config.format = some (.vobj ((k, fv) :: kvs)))
    (v : JSVal) (_hscalar : jsScalar v = true) (ht : jsTruthy v = true)
    (w : JSVal) (hw : toJira v config = some w) :
    fromJira w config = v := by
  have hvw : toJira v config = some (JSVal.vobj [(k, v)]) := by
    simp [toJira, ht, hf, jsFirstKey]
  rw [hvw] at hw
  injection hw with hw
  subst hw
  simp [fromJira, hf, jsFirstKey, jsTruthy_vobj, jsGet_head, jsOr, ht]

/-- Witness for C8: the priority reference `"3"` survives the
round-trip. -/
theorem singleRef_roundtrip_witness :
    toJira (.vstr "3") priorityRefConfig = some (.vobj [("id", .vstr "3")]) ∧
      fromJira (.vobj [("id", .vstr "3")]) priorityRefConfig = .vstr "3" :=
  ⟨rfl, singleRef_roundtrip priorityRefConfig "id" (.vstr "string") [] rfl
    (.vstr "3") rfl rfl (.vobj [("id", .vstr "3")]) rfl⟩

/-! ## Claim C2 -/

/-- Counterexample to C2: for the list-of-reference `components` config,
transforming the empty array does *not* omit the field — an empty array
is truthy in JavaScript and is not matched by the strict-equality guard
`value === ''`, so `toJira` returns the empty wrapper list `[]` and
`transformToJiraFormat` emits the field with value `[]`. -/
theorem toJira_emptyArray_emitted :
    toJira (JSVal.varr []) componentsListConfig = some (JSVal.varr []) ∧
      transformToJiraFormat [("components", componentsListConfig)]
        [("components", JSVal.varr [])]
        = [("components", JSVal.varr [])] :=
  ⟨rfl, rfl⟩

/-- Claim C2 as amended: undefined, null or empty-string input yields
no entry in the wire payload, in both transformers; but for a
list-of-reference field — array type with a non-empty reference-wrapper
format, the shape on which the source does not throw — an empty array
is not omitted: `toJira` returns an empty wrapper list and
`transformToJiraFormat` emits the field with `[]`. -/
theorem emptyInput_omitted_but_emptyArray_emitted :
    (∀ config : FieldConfig,
      toJira JSVal.vundefined config = none ∧ toJira JSVal.vnull config = none ∧
        toJira (JSVal.vstr "") config = none) ∧
    (∀ (config : FieldConfig) (k : String) (fv : JSVal)
        (kvs : List (String × JSVal)) (rest : List JSVal),
      config.type = "array" →
      config.format = some (JSVal.varr (JSVal.vobj ((k, fv) :: kvs) :: rest)) →
      toJiraThrows (JSVal.varr []) config = false ∧
        toJira (JSVal.varr []) config = some (JSVal.varr [])) ∧
    (∀ (fields : List (String × FieldConfig)) (logicalName : String) (v : JSVal),
      isOmittedEntryVal v = true →
        transformToJiraFormat fields [(logicalName, v)] = []) ∧
    (∀ (fields : List (String × FieldConfig)) (logicalName : String)
        (config : FieldConfig) (k : String) (fv : JSVal)
        (kvs : List (String × JSVal)) (rest : List JSVal),
      mapGet fields logicalName = some config →
      config.format = some (JSVal.varr (JSVal.vobj ((k, fv) :: kvs) :: rest)) →
      transformValueThrows config (JSVal.varr []) = false ∧
        transformToJiraFormat fields [(logicalName, JSVal.varr [])]
          = [(config.jiraField, JSVal.varr [])]) := by
  refine ⟨?_, ?_, ?_, ?_⟩
  · intro config
    refine ⟨?_, ?_, ?_⟩ <;> simp [toJira, jsTruthy]
  · intro config k fv kvs rest htype hfmt
    constructor
    · simp [toJiraThrows, hfmt, jsObjectKeysThrows]
    · simp [toJira, jsTruthy, hfmt, htype]
  · intro fields logicalName v hv
    unfold transformToJiraFormat
    simp only [List.foldl]
    cases hm : mapGet fields logicalName <;> simp [hm, hv]
  · intro fields logicalName config k fv kvs rest hm hfmt
    constructor
    · simp [transformValueThrows, hfmt, jsObjectKeysThrows, isOmittedEntryVal]
    · unfold transformToJiraFormat
      simp [hm, hfmt, isOmittedEntryVal]

/-- Witness for C2 (amended) at the `components` config and the single
entry map. -/
theorem emptyInput_omitted_witness :
    toJira JSVal.vundefined componentsListConfig = none ∧
      transformToJiraFormat [("components", componentsListConfig)]
        [("components", JSVal.vundefined)] = [] ∧
      transformToJiraFormat [("components", componentsListConfig)]
        [("components", JSVal.varr [])]
        = [("components", JSVal.varr [])] :=
  ⟨(emptyInput_omitted_but_emptyArray_emitted.1 componentsListConfig).1,
    emptyInput_omitted_but_emptyArray_emitted.2.2.1 _ "components"
      JSVal.vundefined rfl,
    (emptyInput_omitted_but_emptyArray_emitted.2.2.2
      [("components", componentsListConfig)] "components" componentsListConfig
      "name" (JSVal.vstr "string") [] [] rfl rfl).2⟩

/-! ## Claim C10 -/

/-- The remote environment for the session-cache witness: the looked-up
issue does not exist, so every fetch fails with the already-classified
HTTP 404 failure. -/
def gone4Failure : AxiosFailure :=
  AxiosFailure.response 404
    (JSVal.vobj [("errorMessages", JSVal.varr [JSVal.vstr "Issue Does Not Exist"])])

def envKeySingle : RemoteEnv :=
  { createTest := fun _ => .error (.other "not exercised"),
    addTestStep := fun _ _ => .error (.other "not exercised"),
    getIssue := fun _ => .error gone4Failure,
    linkIssues := fun _ _ _ => .error (.other "not exercised") }

/-- Claim C3: validating a well-formed identifier that is not yet in the
Batch Validator's session cache issues exactly one remote lookup; a
second validation of the same identifier in the same session is then
answered from the cache with no further remote call — negative results
included: if the remote lookup failed, the revalidation is served the
cached `Issue not found` without touching the network. -/
theorem validateIssueKey_second_lookup_cached (env : RemoteEnv)
    (cache : List (String × CachedValidation)) (tr : List RemoteCall)
    (issueKey : String) (expected : Option (List String))
    (hfmt : isValidKeyFormat issueKey = true)
    (hmiss : mapGet cache (upperString issueKey) = none) :
    (validateIssueKey env cache tr issueKey expected).2.2 =
        tr ++ [RemoteCall.getIssue (upperString issueKey)] ∧
      (validateIssueKey env
          (validateIssueKey env cache tr issueKey expected).2.1
          (validateIssueKey env cache tr issueKey expected).2.2
          issueKey expected).2.2 =
        (validateIssueKey env cache tr issueKey expected).2.2 ∧
      ∀ ax, env.getIssue (upperString issueKey) = .error ax →
        (validateIssueKey env
            (validateIssueKey env cache tr issueKey expected).2.1
            (validateIssueKey env cache tr issueKey expected).2.2
            issueKey expected).1 =
          { valid := false, error := some "Issue not found",
            issueType := none, summary := none } := by
  have hmeq := validateIssueKey_miss_eq env cache tr issueKey expected hfmt hmiss
  obtain ⟨entry, hc1⟩ :=
    validateIssueKeyMiss_cache_shape env cache tr issueKey expected
  have hc1' : (validateIssueKey env cache tr issueKey expected).2.1 =
      cache ++ [(upperString issueKey, entry)] := by
    rw [hmeq]; exact hc1
  have hhit : mapGet (validateIssueKey env cache tr issueKey expected).2.1
      (upperString issueKey) = some entry := by
    rw [hc1']
    exact mapGet_append_self cache (upperString issueKey) entry hmiss
  refine ⟨?_, ?_, ?_⟩
  · rw [hmeq]
    exact validateIssueKeyMiss_trace env cache tr issueKey expected
  · exact (validateIssueKey_hit_state env _ _ issueKey expected entry hfmt
      hhit).2
  · intro ax hfail
    have hcneg : (validateIssueKey env cache tr issueKey expected).2.1 =
        cache ++ [(upperString issueKey,
          { valid := false, issueType := none, summary := none })] := by
      rw [hmeq]
      exact validateIssueKeyMiss_fail_cache env cache tr issueKey expected
        ax hfail
    have hhitneg : mapGet (validateIssueKey env cache tr issueKey expected).2.1
        (upperString issueKey) =
          some { valid := false, issueType := none, summary := none } := by
      rw [hcneg]
      exact mapGet_append_self cache (upperString issueKey) _ hmiss
    exact validateIssueKey_hit_neg env _ _ issueKey expected _ hfmt hhitneg rfl

theorem validateIssueKey_second_lookup_cached_witness :
    (validateIssueKey envKeySingle [] [] "GONE-4" none).2.2 =
        [] ++ [RemoteCall.getIssue (upperString "GONE-4")] ∧
      (validateIssueKey envKeySingle
          (validateIssueKey envKeySingle [] [] "GONE-4" none).2.1
          (validateIssueKey envKeySingle [] [] "GONE-4" none).2.2
          "GONE-4" none).2.2 =
        (validateIssueKey envKeySingle [] [] "GONE-4" none).2.2 ∧
      (validateIssueKey envKeySingle
          (validateIssueKey envKeySingle [] [] "GONE-4" none).2.1
          (validateIssueKey envKeySingle [] [] "GONE-4" none).2.2
          "GONE-4" none).1 =
        { valid := false, error := some "Issue not found",
          issueType := none, summary := none } :=
  ⟨(validateIssueKey_second_lookup_cached envKeySingle [] [] "GONE-4" none
      (by decide) rfl).1,
   (validateIssueKey_second_lookup_cached envKeySingle [] [] "GONE-4" none
      (by decide) rfl).2.1,
   (validateIssueKey_second_lookup_cached envKeySingle [] [] "GONE-4" none
      (by decide) rfl).2.2 gone4Failure rfl⟩

/-- The remote environment for the batch witness: `GOOD-1` exists, every
other identifier's fetch fails with an already-classified HTTP 500. -/
def batchFailure : AxiosFailure :=
  AxiosFailure.response 500 (JSVal.vobj [])

def envKeyBatch : RemoteEnv :=
  { createTest := fun _ => .error (.other "not exercised"),
    addTestStep := fun _ _ => .error (.other "not exercised"),
    getIssue := fun k =>
      if k = "GOOD-1" then
        .ok { key := "GOOD-1", issuetypeName := "Story", summary := "Login" }
      else .error batchFailure,
    linkIssues := fun _ _ _ => .error (.other "not exercised") }

/-- Claim C4: the Batch Validator's `validateIssueKeys` returns results
for every requested identifier — one labelled entry per key, in order —
and a key whose remote lookup fails (given it is well formed and not
positively cached) is reported individually as invalid with an error
reason, independently of the other keys in the batch: `validateIssueKey`
returns on every path, so the `Promise.all` join always fulfills. -/
theorem validateIssueKeys_per_key_results (env : RemoteEnv)
    (keys : List String) (expected : Option (List String))
    (cache : List (String × CachedValidation)) (tr : List RemoteCall) :
    ((validateIssueKeys env keys expected cache tr).1).map Prod.fst = keys ∧
      ∀ k, k ∈ keys → isValidKeyFormat k = true →
        (∀ c, mapGet cache (upperString k) = some c → c.valid = false) →
        ∀ ax, env.getIssue (upperString k) = .error ax →
        ∃ r, (k, r) ∈ (validateIssueKeys env keys expected cache tr).1 ∧
          r.valid = false ∧ r.error.isSome = true := by
  refine ⟨validateIssueKeysGo_keys env expected keys cache tr, ?_⟩
  intro k hk hfmt hncc ax hfail
  exact validateIssueKeysGo_fail_mem env expected k ax hfail hfmt keys cache
    tr hk hncc

theorem validateIssueKeys_per_key_results_witness :
    ((validateIssueKeys envKeyBatch ["GOOD-1", "BAD-2"] none [] []).1).map
        Prod.fst = ["GOOD-1", "BAD-2"] ∧
      ∃ r, ("BAD-2", r) ∈
          (validateIssueKeys envKeyBatch ["GOOD-1", "BAD-2"] none [] []).1 ∧
        r.valid = false ∧ r.error.isSome = true :=
  ⟨(validateIssueKeys_per_key_results envKeyBatch ["GOOD-1", "BAD-2"] none
      [] []).1,
   (validateIssueKeys_per_key_results envKeyBatch ["GOOD-1", "BAD-2"] none
      [] []).2 "BAD-2" (by decide) (by decide) (fun c hc => nomatch hc)
     batchFailure rfl⟩

/-! ## Claim C1 -/

/-- The three steps of the C1 scenario. -/
def stepOne : TestStepInput := { step := "Step 1", data := "d1", result := "r1" }

/-- The failing middle step of the C1 scenario. -/
def stepTwo : TestStepInput := { step := "Step 2", data := "d2", result := "r2" }

/-- The step after the failing one in the C1 scenario. -/
def stepThree : TestStepInput := { step := "Step 3", data := "d3", result := "r3" }

/-- The simulated remote error attached to `stepTwo`. -/
def stepTwoFailure : AxiosFailure :=
  .response 500 (.vobj [("errorMessages", .varr [.vstr "Internal server error"])])

/-- A remote environment where creation succeeds as `TEST-1` and
attaching `stepTwo` fails with a simulated remote error. -/
def envCreatePartial : RemoteEnv :=
  { createTest := fun _ => .ok { id := "10001", key := "TEST-1", self := "u" },
    addTestStep := fun _ s =>
      if s.step = "Step 2" then .error stepTwoFailure else .ok (),
    getIssue := fun _ => .error (.other "not exercised"),
    linkIssues := fun _ _ _ => .ok () }

/-- Counterexample to C1: creation succeeds and the second of three step
attachments fails — the handler result is the plain whole-operation
failure `{success:false, error}` carrying only the step error: it does
not report the record as created, does not say 2-of-3 steps attached and
does not name the failed step.  (The trace also shows the true half of
the claim: no rollback or delete call is issued, and the third step is
not attempted.) -/
theorem createTest_stepFailure_whole_failure :
    (createTestHandler envCreatePartial "Login test"
        [stepOne, stepTwo, stepThree]).1
      = .failure (handleError stepTwoFailure) ∧
    (createTestHandler envCreatePartial "Login test"
        [stepOne, stepTwo, stepThree]).2
      = [RemoteCall.createIssue "Test" "Login test",
         RemoteCall.addStep "TEST-1" stepOne, RemoteCall.addStep "TEST-1" stepTwo] :=
  ⟨rfl, rfl⟩

/-- The trace grows by exactly the attempted step call, whatever the
outcome. -/
lemma runAddTestStep_trace (env : RemoteEnv) (tr : List RemoteCall)
    (testKey : String) (s : TestStepInput) :
    (runAddTestStep env tr testKey s).2 = tr ++ [RemoteCall.addStep testKey s] := by
  unfold runAddTestStep
  cases env.addTestStep testKey s <;> rfl

/-- The step-attachment loop cannot add delete calls to the trace. -/
lemma attachStepsLoop_no_delete (env : RemoteEnv) (testKey : String)
    (steps : List TestStepInput) (tr : List RemoteCall)
    (htr : ∀ c ∈ tr, c.isDelete = false) :
    ∀ c ∈ (attachStepsLoop env testKey steps tr).2, c.isDelete = false := by
  induction steps generalizing tr with
  | nil => exact htr
  | cons s rest ih =>
    have htr' : ∀ c ∈ (runAddTestStep env tr testKey s).2, c.isDelete = false := by
      rw [runAddTestStep_trace]
      intro c hc
      rcases List.mem_append.mp hc with h1 | h1
      · exact htr c h1
      · rw [List.mem_singleton.mp h1]
        rfl
    unfold attachStepsLoop
    cases h : (runAddTestStep env tr testKey s).1 with
    | ok _ => exact ih _ htr'
    | error e => exact htr'

/-- A failing step anywhere in the list makes the attachment loop throw. -/
lemma attachStepsLoop_fails (env : RemoteEnv) (testKey : String)
    (steps : List TestStepInput) (s : TestStepInput) (hs : s ∈ steps)
    (ax : AxiosFailure) (hfail : env.addTestStep testKey s = .error ax) :
    ∀ tr, ∃ e tr', attachStepsLoop env testKey steps tr = (.error e, tr') := by
  induction steps with
  | nil => exact absurd hs (List.not_mem_nil s)
  | cons s0 rest ih =>
    intro tr
    unfold attachStepsLoop
    cases h : (runAddTestStep env tr testKey s0).1 with
    | ok _ =>
      rcases List.mem_cons.mp hs with heq | hmem
      · subst heq
        exact absurd h (by unfold runAddTestStep; rw [hfail]; simp)
      · obtain ⟨e, tr', he⟩ := ih hmem (runAddTestStep env tr testKey s0).2
        exact ⟨e, tr', he⟩
    | error e => exact ⟨e, (runAddTestStep env tr testKey s0).2, rfl⟩

/-- Claim C1 as amended: when the creation call succeeds and at least one
step attachment fails, no rollback or delete call is issued — but the
operation's aggregate result is a single whole-operation failure: it
carries only the (classified) step error, reporting neither that the
record was created nor which step attachments succeeded or failed. -/
theorem createTest_stepFailure_amended (env : RemoteEnv) (summary : String)
    (steps : List TestStepInput) (test : CreateIssueResponse)
    (hcreate : env.createTest summary = .ok test)
    (s : TestStepInput) (hs : s ∈ steps) (ax : AxiosFailure)
    (hfail : env.addTestStep test.key s = .error ax) :
    (∃ e, (createTestHandler env summary steps).1 = .failure e) ∧
      (∀ c ∈ (createTestHandler env summary steps).2, c.isDelete = false) := by
  have heq : createTestHandler env summary steps =
      (match (attachStepsLoop env test.key steps
          [RemoteCall.createIssue "Test" summary]).1 with
       | .ok _ => (.success test, (attachStepsLoop env test.key steps
            [RemoteCall.createIssue "Test" summary]).2)
       | .error e => (.failure e, (attachStepsLoop env test.key steps
            [RemoteCall.createIssue "Test" summary]).2)) := by
    unfold createTestHandler runCreateTest
    rw [hcreate]
    rfl
  constructor
  · obtain ⟨e, tr', he⟩ :=
      attachStepsLoop_fails env test.key steps s hs ax hfail
        [RemoteCall.createIssue "Test" summary]
    refine ⟨e, ?_⟩
    rw [heq, he]
  · intro c hc
    rw [heq] at hc
    have hbase : ∀ c' ∈ [RemoteCall.createIssue "Test" summary],
        c'.isDelete = false := by
      simp [RemoteCall.isDelete]
    have hall := attachStepsLoop_no_delete env test.key steps
      [RemoteCall.createIssue "Test" summary] hbase
    revert hc
    cases h : (attachStepsLoop env test.key steps
        [RemoteCall.createIssue "Test" summary]).1 with
    | ok _ => exact fun hc => hall c hc
    | error e => exact fun hc => hall c hc

/-- Witness for C1 (amended) at the concrete partial-failure scenario. -/
theorem createTest_stepFailure_amended_witness :
    (∃ e, (createTestHandler envCreatePartial "Login test"
        [stepOne, stepTwo, stepThree]).1 = .failure e) ∧
      (∀ c ∈ (createTestHandler envCreatePartial "Login test"
          [stepOne, stepTwo, stepThree]).2, c.isDelete = false) :=
  createTest_stepFailure_amended envCreatePartial "Login test"
    [stepOne, stepTwo, stepThree] { id := "10001", key := "TEST-1", self := "u" }
    rfl stepTwo (by simp) stepTwoFailure rfl

/-! ## Claim C5 -/

/-- The inductive invariant of the gate: outstanding remote calls never
exceed admitted callbacks, and admitted callbacks never exceed the
capacity. -/
lemma gateReach_invariant (cap : Nat) (s : GateState)
    (h : GateReach cap s) : s.inFlight ≤ s.active ∧ s.active ≤ cap := by
  induction h with
  | init => exact ⟨Nat.le_refl 0, Nat.zero_le cap⟩
  | step s t hs hst ih =>
    cases hst with
    | submit => exact ih
    | acquire hq ha => exact ⟨Nat.le_succ_of_le ih.1, ha⟩
    | beginCall hlt => exact ⟨hlt, ih.2⟩
    | endCall hpos => exact ⟨Nat.le_trans (Nat.sub_le _ _) ih.1, ih.2⟩
    | finish hlt =>
      exact ⟨Nat.le_sub_one_of_lt hlt, Nat.le_trans (Nat.sub_le _ _) ih.2⟩

/-- Claim C5: every remote-calling method of the service routes its call
through the shared limiter (transcription table), and in every state
reachable by any interleaving of submissions, admissions, call starts,
call completions and callback returns, at most
`MAX_CONCURRENT_REQUESTS = 5` remote calls are in flight. -/
theorem gate_limits_inflight :
    (∀ m ∈ jiraServiceLimiterWrapped, m.2 = true) ∧
      ∀ s : GateState, GateReach MAX_CONCURRENT_REQUESTS s →
        s.inFlight ≤ MAX_CONCURRENT_REQUESTS := by
  constructor
  · decide
  · intro s h
    have hi := gateReach_invariant MAX_CONCURRENT_REQUESTS s h
    exact Nat.le_trans hi.1 hi.2

/-- The burst scenario of the claim: 8 creation callbacks submitted, 5
admitted, all 5 with their remote calls in flight, 3 still queued. -/
def burstGateState : GateState := { queued := 3, active := 5, inFlight := 5 }

/-- The burst state is reachable: 8 submissions, then 5 admissions, then
5 call starts. -/
lemma burstGateState_reachable :
    GateReach MAX_CONCURRENT_REQUESTS burstGateState := by
  have h0 : GateReach MAX_CONCURRENT_REQUESTS ⟨0, 0, 0⟩ := GateReach.init
  have h1 := GateReach.step _ _ h0 (GateStep.submit ⟨0, 0, 0⟩)
  have h2 := GateReach.step _ _ h1 (GateStep.submit ⟨1, 0, 0⟩)
  have h3 := GateReach.step _ _ h2 (GateStep.submit ⟨2, 0, 0⟩)
  have h4 := GateReach.step _ _ h3 (GateStep.submit ⟨3, 0, 0⟩)
  have h5 := GateReach.step _ _ h4 (GateStep.submit ⟨4, 0, 0⟩)
  have h6 := GateReach.step _ _ h5 (GateStep.submit ⟨5, 0, 0⟩)
  have h7 := GateReach.step _ _ h6 (GateStep.submit ⟨6, 0, 0⟩)
  have h8 := GateReach.step _ _ h7 (GateStep.submit ⟨7, 0, 0⟩)
  have a1 := GateReach.step _ _ h8
    (GateStep.acquire ⟨8, 0, 0⟩ (by decide) (by decide))
  have a2 := GateReach.step _ _ a1
    (GateStep.acquire ⟨7, 1, 0⟩ (by decide) (by decide))
  have a3 := GateReach.step _ _ a2
    (GateStep.acquire ⟨6, 2, 0⟩ (by decide) (by decide))
  have a4 := GateReach.step _ _ a3
    (GateStep.acquire ⟨5, 3, 0⟩ (by decide) (by decide))
  have a5 := GateReach.step _ _ a4
    (GateStep.acquire ⟨4, 4, 0⟩ (by decide) (by decide))
  have b1 := GateReach.step _ _ a5
    (GateStep.beginCall ⟨3, 5, 0⟩ (by decide))
  have b2 := GateReach.step _ _ b1
    (GateStep.beginCall ⟨3, 5, 1⟩ (by decide))
  have b3 := GateReach.step _ _ b2
    (GateStep.beginCall ⟨3, 5, 2⟩ (by decide))
  have b4 := GateReach.step _ _ b3
    (GateStep.beginCall ⟨3, 5, 3⟩ (by decide))
  have b5 := GateReach.step _ _ b4
    (GateStep.beginCall ⟨3, 5, 4⟩ (by decide))
  exact b5

/-- Witness for C5: the `createTest` method is limiter-wrapped, and in
the 8-creations burst state no more than 5 calls are in flight. -/
theorem gate_limits_inflight_witness :
    ("createTest", true).2 = true ∧
      burstGateState.inFlight ≤ MAX_CONCURRENT_REQUESTS :=
  ⟨gate_limits_inflight.1 ("createTest", true) (by decide),
    gate_limits_inflight.2 burstGateState burstGateState_reachable⟩

/-! ## Claim C7 -/

/-- Find-result membership for the association-list lookup. -/
lemma mapGet_mem {α : Type} (m : List (String × α)) (k : String) (f : α)
    (h : mapGet m k = some f) : (k, f) ∈ m := by
  unfold mapGet at h
  cases hfind : m.find? (fun p => p.1 == k) with
  | none => rw [hfind] at h; exact absurd h (by simp)
  | some p =>
    rw [hfind] at h
    injection h with h
    have hp := List.mem_of_find?_eq_some hfind
    have heq : p.1 = k := by
      have := List.find?_some hfind
      simpa using this
    have hkf : (k, f) = p := by rw [← heq, ← h]
    rw [hkf]
    exact hp

/-- In a well-keyed metadata map, the looked-up descriptor carries the
key it is filed under (the source sets `fields.set(descriptor.key,
descriptor)`). -/
lemma mapGet_key (m : MIssueTypeMetadata)
    (h3 : ∀ p ∈ m.fields, p.2.key = p.1) (k : String) (f : MFieldDescriptor)
    (h : mapGet m.fields k = some f) : f.key = k :=
  h3 (k, f) (mapGet_mem m.fields k f h)

/-- Key-respecting filterMaps over duplicate-free key lists produce
duplicate-free key sequences. -/
lemma keys_filterMap_nodup (l : List String)
    (g : String → Option MFieldDescriptor)
    (hg : ∀ k f, g k = some f → f.key = k) (hl : l.Nodup) :
    ((l.filterMap g).map (fun f => f.key)).Nodup := by
  induction l with
  | nil => simp
  | cons k rest ih =>
    obtain ⟨hk, hrest⟩ := List.nodup_cons.mp hl
    cases hgk : g k with
    | none => simpa [List.filterMap_cons, hgk] using ih hrest
    | some f =>
      simp only [List.filterMap_cons, hgk, List.map_cons, List.nodup_cons]
      refine ⟨?_, ih hrest⟩
      intro hmem
      obtain ⟨f', hf', hkey⟩ := List.mem_map.mp hmem
      obtain ⟨k', hk', hgk'⟩ := List.mem_filterMap.mp hf'
      have e1 : f'.key = k' := hg k' f' hgk'
      have e2 : f.key = k := hg k f hgk
      rw [e1, e2] at hkey
      exact hk (hkey ▸ hk')

/-- The required-part selector of `getCommonFields`. -/
def requiredSelector (m : MIssueTypeMetadata) (key : String) :
    Option MFieldDescriptor :=
  match mapGet m.fields key with
  | some field => if !(commonFieldKeys.contains key) then some field else none
  | none => none

/-- `getCommonFields` is the required-part filterMap followed by the
allowlist filterMap. -/
lemma getCommonFields_eq (m : MIssueTypeMetadata) :
    getCommonFields m = m.requiredFields.filterMap (requiredSelector m) ++
      commonFieldKeys.filterMap (fun key => mapGet m.fields key) := rfl

lemma requiredSelector_some (m : MIssueTypeMetadata) (k : String)
    (f : MFieldDescriptor) (h : requiredSelector m k = some f) :
    mapGet m.fields k = some f ∧ k ∉ commonFieldKeys := by
  unfold requiredSelector at h
  cases hm : mapGet m.fields k with
  | none => rw [hm] at h; exact absurd h (by simp)
  | some f0 =>
    rw [hm] at h
    simp at h
    exact ⟨by rw [h.2], h.1⟩

/-- Claim C7 as amended: for a well-keyed cached issue type (each cached
descriptor filed under its own key, duplicate-free required list), the
ordered descriptor list returned by `getCommonFields` has pairwise
distinct fields (each appears exactly once); every required field that is
not in the allowlist appears, as does every allowlist field present in
the schema; every returned field is required-or-allowlisted; and the list
splits as the required-but-not-allowlisted group followed by the
allowlist group — so a required field that *is* in the allowlist appears
once, in the allowlist group, not in the leading required group. -/
theorem getCommonFields_spec (m : MIssueTypeMetadata)
    (h1 : m.requiredFields.Nodup)
    (h3 : ∀ p ∈ m.fields, p.2.key = p.1) :
    ((getCommonFields m).map (fun f => f.key)).Nodup ∧
    (∀ k ∈ m.requiredFields, k ∉ commonFieldKeys →
      ∀ f, mapGet m.fields k = some f → f ∈ getCommonFields m) ∧
    (∀ k ∈ commonFieldKeys, ∀ f, mapGet m.fields k = some f →
      f ∈ getCommonFields m) ∧
    (∀ f ∈ getCommonFields m, f.key ∈ m.requiredFields ∨ f.key ∈ commonFieldKeys) ∧
    (∃ A B, getCommonFields m = A ++ B ∧
      (∀ f ∈ A, f.key ∈ m.requiredFields ∧ f.key ∉ commonFieldKeys) ∧
      (∀ f ∈ B, f.key ∈ commonFieldKeys)) := by
  have hgA : ∀ k f, requiredSelector m k = some f → f.key = k := fun k f h =>
    mapGet_key m h3 k f (requiredSelector_some m k f h).1
  have hgB : ∀ k f, mapGet m.fields k = some f → f.key = k := mapGet_key m h3
  refine ⟨?_, ?_, ?_, ?_, ?_⟩
  · rw [getCommonFields_eq, List.map_append]
    rw [List.nodup_append]
    refine ⟨keys_filterMap_nodup _ _ hgA h1,
      keys_filterMap_nodup _ _ hgB (by decide), ?_⟩
    intro a ha hb
    obtain ⟨f, hf, hfk⟩ := List.mem_map.mp ha
    obtain ⟨k, hk, hgk⟩ := List.mem_filterMap.mp hf
    obtain ⟨f', hf', hfk'⟩ := List.mem_map.mp hb
    obtain ⟨k', hk', hgk'⟩ := List.mem_filterMap.mp hf'
    have := (requiredSelector_some m k f hgk).2
    rw [hgA k f hgk] at hfk
    rw [hgB k' f' hgk'] at hfk'
    subst hfk
    subst hfk'
    exact this hk'
  · intro k hk hknot f hf
    rw [getCommonFields_eq]
    refine List.mem_append_left _ (List.mem_filterMap.mpr ⟨k, hk, ?_⟩)
    unfold requiredSelector
    rw [hf]
    simpa using hknot
  · intro k hk f hf
    rw [getCommonFields_eq]
    exact List.mem_append_right _ (List.mem_filterMap.mpr ⟨k, hk, hf⟩)
  · intro f hf
    rw [getCommonFields_eq] at hf
    rcases List.mem_append.mp hf with hfa | hfb
    · obtain ⟨k, hk, hgk⟩ := List.mem_filterMap.mp hfa
      exact Or.inl ((hgA k f hgk) ▸ hk)
    · obtain ⟨k, hk, hgk⟩ := List.mem_filterMap.mp hfb
      exact Or.inr ((hgB k f hgk) ▸ hk)
  · refine ⟨m.requiredFields.filterMap (requiredSelector m),
      commonFieldKeys.filterMap (fun key => mapGet m.fields key),
      getCommonFields_eq m, ?_, ?_⟩
    · intro f hf
      obtain ⟨k, hk, hgk⟩ := List.mem_filterMap.mp hf
      obtain ⟨_, hknot⟩ := requiredSelector_some m k f hgk
      have hkey := hgA k f hgk
      exact ⟨hkey ▸ hk, hkey ▸ hknot⟩
    · intro f hf
      obtain ⟨k, hk, hgk⟩ := List.mem_filterMap.mp hf
      exact (hgB k f hgk) ▸ hk

/-- A non-required descriptor present in the schema under an allowlist
key that precedes `priority`. -/
def c7FieldDescription : MFieldDescriptor :=
  { key := "description", name := "Description", type := "string",
    required := false }

/-- A required descriptor whose key is in the allowlist. -/
def c7FieldPriority : MFieldDescriptor :=
  { key := "priority", name := "Priority", type := "priority", required := true }

/-- A cached issue type whose only required field (`priority`) is in the
allowlist. -/
def c7Metadata : MIssueTypeMetadata :=
  { id := "10100", name := "Test",
    fields := [("description", c7FieldDescription),
               ("priority", c7FieldPriority)],
    requiredFields := ["priority"] }

/-- Counterexample to C7: the required `priority` field does *not* come
first — because it is in the allowlist it is excluded from the leading
required group and emitted at its allowlist position, after the
non-required `description` field.  The returned order is
`[description, priority]`, violating "required fields first". -/
theorem getCommonFields_required_not_first :
    getCommonFields c7Metadata = [c7FieldDescription, c7FieldPriority] ∧
      c7FieldDescription.required = false ∧ c7FieldPriority.required = true :=
  ⟨rfl, rfl, rfl⟩

/-- The summary descriptor of the C7 witness metadata. -/
def c7wSummary : MFieldDescriptor :=
  { key := "summary", name := "Summary", type := "string", required := true }

/-- A required descriptor outside the allowlist for the C7 witness. -/
def c7wCustom : MFieldDescriptor :=
  { key := "customfield_99000", name := "Steps", type := "string",
    required := true }

/-- The C7 witness metadata: one required allowlisted field and one
required non-allowlisted field. -/
def c7wMetadata : MIssueTypeMetadata :=
  { id := "10200", name := "Test",
    fields := [("summary", c7wSummary), ("customfield_99000", c7wCustom)],
    requiredFields := ["summary", "customfield_99000"] }

/-- Witness for C7 (amended): the concrete metadata satisfies the
hypotheses and its descriptor list has pairwise distinct keys. -/
theorem getCommonFields_spec_witness :
    ((getCommonFields c7wMetadata).map (fun f => f.key)).Nodup :=
  (getCommonFields_spec c7wMetadata (by decide) (by decide)).1
